import Mathlib

/-!
Shallow embedding of the TEF (TablEdit tablature file) binary decoder of
`src/tef_parser/reader.py`, together with theorems settling the claims about
its specification.

Conventions of the embedding:
* The file's byte buffer is a `List Nat` (each element a byte value).
* Python strings are represented as lists of character codes (`List Nat`);
  `bytes.decode` with `ascii`/`latin-1` is modelled accordingly.
* Python integer division/modulo on nonnegative values is `Nat` `/` and `%`.
* Python slices `data[a:b]` clamp at the ends; `pySlice` mirrors that.
* Functions that can raise in Python (struct.unpack on a short slice, index
  out of bounds) are modelled in `Except String`; functions whose internal
  accesses are all guarded in the source are modelled as total functions.
* Loops that advance the cursor by a fixed record width are modelled as
  structural recursion over the list of fixed-width chunks; the instrument
  scanner's `while True: idx = data.find(pat, idx)` loop is modelled as a
  fold over the ascending list of all occurrences of the pattern, which
  visits exactly the same positions.
* The filesystem path carried by `TEFFile` is omitted: the embedding starts
  from the byte buffer.
-/

namespace TEF

set_option maxRecDepth 20000

/-- Python `data[i]` for a nonnegative in-bounds index; out-of-range reads
return 0 (the source only indexes under guards that keep it in bounds). -/
def pyGet (data : List Nat) (i : Nat) : Nat := data.getD i 0

/-- Python `data[i]` at a possibly negative index; the source's backward
scans only dereference positions `> 0`, so the negative case is junk. -/
def pyGetI (data : List Nat) (i : Int) : Nat :=
  if i < 0 then 0 else pyGet data i.toNat

/-- Python slice `data[a:b]` (with clamping semantics, `0 ≤ a ≤ b`). -/
def pySlice (data : List Nat) (a b : Nat) : List Nat :=
  (data.take b).drop a

/-- `struct.unpack("<H", data[i:i+2])`: little-endian 16-bit read. -/
def leU16At (data : List Nat) (i : Nat) : Nat :=
  pyGet data i + 256 * pyGet data (i + 1)

/-- `struct.unpack("<I", data[i:i+4])`: little-endian 32-bit read. -/
def leU32At (data : List Nat) (i : Nat) : Nat :=
  pyGet data i + 256 * pyGet data (i + 1) + 65536 * pyGet data (i + 2) +
    16777216 * pyGet data (i + 3)

/-- Little-endian 32-bit value of the first four bytes of a record. -/
def leU32Of (r : List Nat) : Nat :=
  pyGet r 0 + 256 * pyGet r 1 + 65536 * pyGet r 2 + 16777216 * pyGet r 3

/-- `TEFHeader`: header dataclass of `reader.py` (v2 fields carry their
Python defaults for v3 files). -/
structure TEFHeader where
  format_id : Nat
  version_major : Nat
  version_minor : Nat
  raw_header : List Nat
  v2_title : List Nat := []
  v2_composer : List Nat := []
  v2_comments : List Nat := []
  v2_header_end : Nat := 0
  v2_measures : Nat := 0
  v2_time_num : Nat := 4
  v2_time_denom : Nat := 4
  v2_tempo : Nat := 120
  v2_strings : Nat := 4
  v2_tracks : Nat := 1
  v2_component_offset : Nat := 0
  v2_component_count : Nat := 0
  deriving Repr, DecidableEq

/-- `TEFHeader.is_v2` property. -/
def TEFHeader.is_v2 (h : TEFHeader) : Bool := h.version_major == 2

/-- `TEFHeader.v2_ts_size` property: time slice size for v2 position
calculations. -/
def TEFHeader.v2_ts_size (h : TEFHeader) : Nat :=
  if h.v2_time_denom = 0 then 256
  else 256 * h.v2_time_num / h.v2_time_denom

/-- `TEFString` dataclass. -/
structure TEFString where
  offset : Nat
  value : List Nat
  length : Nat
  deriving Repr, DecidableEq

/-- `TEFInstrument` dataclass. -/
structure TEFInstrument where
  name : List Nat
  tuning_name : List Nat
  num_strings : Nat
  tuning_pitches : List Nat
  offset : Nat
  deriving Repr, DecidableEq

/-- `TEFChord` dataclass. -/
structure TEFChord where
  name : List Nat
  offset : Nat
  deriving Repr, DecidableEq

/-- `TEFSection` dataclass. -/
structure TEFSection where
  name : List Nat
  offset : Nat
  deriving Repr, DecidableEq

/-- `TEFReadingListEntry` dataclass. -/
structure TEFReadingListEntry where
  index : Nat
  from_measure : Nat
  to_measure : Nat
  offset : Nat
  deriving Repr, DecidableEq

/-- `TEFNoteEvent` dataclass (the fields the constructor sets). -/
structure TEFNoteEvent where
  position : Nat
  track : Nat
  marker : Char
  extra : Nat
  pitch_byte : Nat
  raw_data : List Nat
  deriving Repr, DecidableEq

/-- `TEFFile` dataclass (without the filesystem path). -/
structure TEFFile where
  header : TEFHeader
  title : List Nat
  strings : List TEFString
  instruments : List TEFInstrument
  chords : List TEFChord
  sections : List TEFSection
  note_events : List TEFNoteEvent
  reading_list : List TEFReadingListEntry
  deriving Repr, DecidableEq

/-! ### Substring search (`bytes.find`) -/

/-- Whether `pat` occurs in `data` starting exactly at `i`. -/
def patAt (data pat : List Nat) (i : Nat) : Bool :=
  pySlice data i (i + pat.length) == pat

/-- All occurrence positions of `pat` in `data`, ascending. -/
def occurrences (data pat : List Nat) : List Nat :=
  (List.range (data.length + 1)).filter (fun i => patAt data pat i)

/-- Python `data.find(pat, start)`;  `none` models the `-1` result. -/
def findFrom (data pat : List Nat) (start : Nat) : Option Nat :=
  ((occurrences data pat).filter (fun i => decide (start ≤ i))).head?

/-- Whether `sub` occurs anywhere in `v` (Python `sub in v`). -/
def containsSub (v sub : List Nat) : Bool :=
  (occurrences v sub) != []

/-! ### `find_strings`: the length-prefixed string scanner

The Python `while` loop advances its cursor `i` by `2 + L` on an accepted
string and by `1` otherwise.  It is modelled as a fold over all positions
`j < data.length`, where the state carries the cursor: positions below the
cursor were consumed by a previous acceptance and are skipped. -/

/-- `candidate[:-1]` when the candidate ends in a NUL byte. -/
def stripOneNull (l : List Nat) : List Nat :=
  if l ≠ [] ∧ l.getLast? = some 0 then l.dropLast else l

/-- Python `str.rstrip` of NULs: drop all trailing zero bytes. -/
def rstripNulls (l : List Nat) : List Nat :=
  (l.reverse.dropWhile (fun b => b == 0)).reverse

/-- Python `str.isalpha` restricted to the ASCII range the scanner admits. -/
def isAsciiAlpha (c : Nat) : Bool :=
  decide ((65 ≤ c ∧ c ≤ 90) ∨ (97 ≤ c ∧ c ≤ 122))

/-- One simulated iteration of the `find_strings` cursor loop at position
`j`; the state is `(cursor, accepted strings)`. -/
def findStringsStep (data : List Nat) (st : Nat × List TEFString) (j : Nat) :
    Nat × List TEFString :=
  if j = st.1 ∧ j < data.length - 2 then
    let L := leU16At data j
    if 3 ≤ L ∧ L ≤ 100 ∧ j + 2 + L ≤ data.length then
      let cand := stripOneNull (pySlice data (j + 2) (j + 2 + L))
      if cand ≠ [] ∧ cand.all (fun b => decide ((32 ≤ b ∧ b < 127) ∨ b = 0)) then
        let value := rstripNulls cand
        if value ≠ [] ∧ value.any isAsciiAlpha then
          (j + 2 + L, st.2 ++ [⟨j, value, L⟩])
        else (j + 1, st.2)
      else (j + 1, st.2)
    else (j + 1, st.2)
  else st

/-- `TEFReader.find_strings`. -/
def find_strings (data : List Nat) : List TEFString :=
  ((List.range data.length).foldl (findStringsStep data) (0, [])).2

/-! ### `read_header` -/

/-- The three null-terminated info strings of a v2 header: repeatedly
`find(b"\x00", pos)` inside `info`, at most `k` times. -/
def v2InfoGo (info : List Nat) : Nat → Nat → List (List Nat)
  | 0, _ => []
  | k + 1, pos =>
    match findFrom info [0] pos with
    | none => []
    | some e => pySlice info pos e :: v2InfoGo info k (e + 1)

/-- `TEFReader._read_v2_header`.  The `Except` models the `IndexError` /
`struct.error` Python raises when the buffer is shorter than the fixed
field layout (the deepest access is `data[256:258]`). -/
def read_v2_header (data : List Nat) : Except String TEFHeader :=
  if data.length < 258 then .error "IndexError: v2 header needs 258 bytes"
  else
    let info := pySlice data 0 200
    let strs := v2InfoGo info 3 0
    .ok { format_id := 0
          version_major := 2
          version_minor := 0
          raw_header := pySlice data 0 64
          v2_title := strs.getD 0 []
          v2_composer := strs.getD 1 []
          v2_comments := strs.getD 2 []
          v2_header_end := 258
          v2_measures := leU16At data 200
          v2_time_num := pyGet data 202
          v2_time_denom := pyGet data 204
          v2_tempo := leU16At data 220
          v2_strings := pyGet data 240
          v2_tracks := pyGet data 241 + 1
          v2_component_offset := 258
          v2_component_count := leU16At data 256 }

/-- `TEFReader.read_header`: dispatch on printability of byte 0; the
`Except` models `IndexError` on buffers too short for the accessed bytes. -/
def read_header (data : List Nat) : Except String TEFHeader :=
  if data.length = 0 then .error "IndexError: empty file"
  else
    let b0 := pyGet data 0
    if 32 ≤ b0 ∧ b0 < 127 then read_v2_header data
    else if data.length < 4 then .error "IndexError: v3 header needs 4 bytes"
    else .ok { format_id := leU16At data 0
               version_major := pyGet data 3
               version_minor := pyGet data 2
               raw_header := pySlice data 0 64 }

/-! ### `parse_instruments`

The backward scans walk a Python cursor `pos` that can reach `-1`; they are
modelled in shifted `Nat` coordinates `p = pos + 1`, wrapped back into `Int`
at the call site. -/

/-- `while pos > 0 and self.data[pos] == 0: pos -= 1` in shifted coordinates
(`p` stands for `pos + 1`). -/
def skipZerosP (data : List Nat) : Nat → Nat
  | 0 => 0
  | 1 => 1
  | p + 2 => if pyGet data (p + 1) = 0 then skipZerosP data (p + 1) else p + 2

/-- Backward run length of bytes equal to `uv`, starting at `pos` and
stopping above 0, in shifted coordinates. -/
def runLenP (data : List Nat) (uv : Nat) : Nat → Nat
  | 0 => 0
  | 1 => 0
  | p + 2 => if pyGet data (p + 1) = uv then 1 + runLenP data uv (p + 1) else 0

/-- `skipZerosP` on the Python `Int` cursor. -/
def skipZeros (data : List Nat) (pos : Int) : Int :=
  (skipZerosP data (pos + 1).toNat : Int) - 1

/-- `runLenP` on the Python `Int` cursor. -/
def runLen (data : List Nat) (uv : Nat) (pos : Int) : Nat :=
  runLenP data uv (pos + 1).toNat

/-- The candidates visited by `range(pos, max(pos - 3, 0), -1)`. -/
def nullWindow (pos : Int) : List Int :=
  [pos, pos - 1, pos - 2].filter (fun c => decide (max (pos - 3) 0 < c))

/-- First NUL position in the window before `pos`, else `-1`. -/
def nullPosIn (data : List Nat) (pos : Int) : Int :=
  ((nullWindow pos).find? (fun c => pyGetI data c == 0)).getD (-1)

/-- Forward scan for the end of the tuning-name label: advance while within
the file, the byte is nonzero, and fewer than 20 bytes were consumed (the
fuel argument starts at 20, making the `tend < tuning_name_start + 20`
bound exact). -/
def tuningNameEndGo (data : List Nat) : Nat → Nat → Nat
  | 0, t => t
  | k + 1, t =>
    if t < data.length ∧ pyGet data t ≠ 0 then tuningNameEndGo data k (t + 1) else t

/-- End offset of the optional tuning-name label starting at `tns`. -/
def tuningNameEnd (data : List Nat) (tns : Nat) : Nat :=
  tuningNameEndGo data 20 tns

/-- The tuning-byte extraction at a resolved `tuning_end` cursor:
`tuning_start = tuning_end - num_strings`; when it is nonnegative and the
extracted bytes all lie in `[0x10, 0x60]`, pitches are `96 - b`; otherwise
the pitch list stays empty. -/
def tuningPitchesAt (data : List Nat) (ds : Nat) (tuning_end : Int) : List Nat :=
  let tuning_start := tuning_end - (ds : Int)
  if tuning_start ≥ 0 then
    (if (pySlice data tuning_start.toNat tuning_end.toNat).all
        (fun b => decide (16 ≤ b ∧ b ≤ 96)) then
      (pySlice data tuning_start.toNat tuning_end.toNat).map (fun b => 96 - b)
    else [])
  else []

/-- Body of the `while True` loop of `parse_instruments` for one occurrence
`idx` of the name pattern `pat` (with default string count `ds`): `none`
when the occurrence is rejected by the name/tuning-name validation,
otherwise the emitted instrument. -/
def instAtOccurrence (data pat : List Nat) (ds idx : Nat) : Option TEFInstrument :=
  let name_end := idx + pat.length
  if name_end ≥ data.length ∨ pyGet data name_end ≠ 0 then none
  else
    let tns := name_end + 1
    let tne := tuningNameEnd data tns
    let tnBytes := pySlice data tns tne
    if tne > tns ∧ (tnBytes.any (fun b => decide (128 ≤ b)) ∨ tnBytes.length > 20 ∨
        (tnBytes.filter (fun b => b == 32)).length > 2) then none
    else
      let tuning_name := if tne > tns then tnBytes else []
      let pos0 : Int := (idx : Int) - 1
      let pos1 := skipZeros data pos0
      let uv := pyGetI data pos1
      let pos2 :=
        if pos1 ≥ 3 ∧ 0 < uv ∧ uv < 128 then
          (if runLen data uv pos1 ≥ 4 then pos1 - (runLen data uv pos1 : Int) else pos1)
        else pos1
      let np := nullPosIn data pos2
      let tuning_end : Int := if np ≥ 0 then np else pos2 + 1
      some ⟨pat, tuning_name, ds, tuningPitchesAt data ds tuning_end, idx⟩

/-- One occurrence step of the per-pattern scan: skip occurrences within 50
bytes of a previously accepted one; otherwise validate and emit.  The state
is `(found_offsets, instruments)`. -/
def scanPatternStep (data pat : List Nat) (ds : Nat)
    (st : List Nat × List TEFInstrument) (idx : Nat) :
    List Nat × List TEFInstrument :=
  if st.1.any (fun off => decide ((idx : Int) - off < 50 ∧ (off : Int) - idx < 50)) then st
  else
    match instAtOccurrence data pat ds idx with
    | none => st
    | some inst => (st.1 ++ [idx], st.2 ++ [inst])

/-- The whole `while True: idx = self.data.find(name_pattern, idx)` loop for
one pattern: it visits exactly the ascending occurrence positions. -/
def scanPattern (data pat : List Nat) (ds : Nat)
    (st : List Nat × List TEFInstrument) : List Nat × List TEFInstrument :=
  (occurrences data pat).foldl (scanPatternStep data pat ds) st

/-- The `instrument_patterns` table (name bytes, default string count). -/
def instrument_patterns : List (List Nat × Nat) :=
  [([77, 97, 110, 100, 111, 108, 105, 110], 4),
   ([109, 97, 110, 100, 111, 108, 105, 110], 4),
   ([66, 97, 110, 106, 111, 32, 111, 112, 101, 110, 32, 71], 5),
   ([98, 97, 110, 106, 111, 32, 111, 112, 101, 110, 32, 71], 5),
   ([66, 97, 110, 106, 111], 5),
   ([98, 97, 110, 106, 111], 5),
   ([71, 117, 105, 116, 97, 114, 32, 83, 116, 97, 110, 100, 97, 114, 100], 6),
   ([103, 117, 105, 116, 97, 114, 32, 115, 116, 97, 110, 100, 97, 114, 100], 6),
   ([71, 117, 105, 116, 97, 114], 6),
   ([103, 117, 105, 116, 97, 114], 6),
   ([66, 97, 115, 115], 4),
   ([98, 97, 115, 115], 4),
   ([85, 107, 117, 108, 101, 108, 101], 4),
   ([117, 107, 117, 108, 101, 108, 101], 4)]

/-- Stable insertion into a list sorted by ascending `offset`. -/
def insertByOffset (x : TEFInstrument) : List TEFInstrument → List TEFInstrument
  | [] => [x]
  | y :: ys => if y.offset ≤ x.offset then y :: insertByOffset x ys else x :: y :: ys

/-- Stable sort by ascending `offset` (`instruments.sort(key=offset)`). -/
def sortByOffset : List TEFInstrument → List TEFInstrument
  | [] => []
  | x :: xs => insertByOffset x (sortByOffset xs)

/-- `TEFReader.parse_instruments`. -/
def parse_instruments (data : List Nat) : List TEFInstrument :=
  sortByOffset
    ((instrument_patterns.foldl (fun st pd => scanPattern data pd.1 pd.2 st) ([], [])).2)

/-- `TEFReader.parse_instruments_v2`: delegates to the v3 instrument parser,
ignoring the header. -/
def parse_instruments_v2 (data : List Nat) (_h : TEFHeader) : List TEFInstrument :=
  parse_instruments data

/-! ### `parse_chords` and `parse_sections` -/

/-- The chord suffix table `['m','7','maj','min','dim','aug','#','b','sus']`. -/
def chordSuffixes : List (List Nat) :=
  [[109], [55], [109, 97, 106], [109, 105, 110], [100, 105, 109],
   [97, 117, 103], [35], [98], [115, 117, 115]]

/-- The chord-name filter applied to a scanned string value. -/
def isChordName (v : List Nat) : Bool :=
  v != [] && [67, 68, 69, 70, 71, 65, 66].contains (pyGet v 0) &&
    decide (v.length ≤ 10) && !(v.contains 32) &&
    (v.length == 1 || chordSuffixes.any (fun suf => (v.drop 1).take suf.length == suf))

/-- `TEFReader.parse_chords`. -/
def parse_chords (data : List Nat) : List TEFChord :=
  ((find_strings data).filter (fun s => isChordName s.value)).map
    (fun s => ⟨s.value, s.offset⟩)

/-- The section filter: `'Part' in v or (v.startswith('(') and v.endswith(')'))`. -/
def isSectionName (v : List Nat) : Bool :=
  containsSub v [80, 97, 114, 116] || (v.take 1 == [40] && v.getLast? == some 41)

/-- `TEFReader.parse_sections`. -/
def parse_sections (data : List Nat) : List TEFSection :=
  ((find_strings data).filter (fun s => isSectionName s.value)).map
    (fun s => ⟨s.value, s.offset⟩)

/-! ### Reading list -/

/-- `TEFReader.find_reading_list_offset`. -/
def find_reading_list_offset (data : List Nat) : Int :=
  if data.length < 132 then -1
  else
    let p := leU32At data 128
    if p = 0 then -1
    else if p ≥ data.length then -1
    else p

/-- The `for i in range(entry_count)` loop of `parse_reading_list`; the
first argument is the remaining count, the second the current index `i`. -/
def readingEntries (data : List Nat) (data_start entry_size : Nat) :
    Nat → Nat → List TEFReadingListEntry
  | 0, _ => []
  | k + 1, i =>
    let eo := data_start + i * entry_size
    if eo + 4 > data.length then []
    else
      let fm := leU16At data eo
      let tm := leU16At data (eo + 2)
      if fm = 0 ∧ tm = 0 then readingEntries data data_start entry_size k (i + 1)
      else ⟨i + 1, fm, tm, eo⟩ :: readingEntries data data_start entry_size k (i + 1)

/-- `TEFReader.parse_reading_list`. -/
def parse_reading_list (data : List Nat) : List TEFReadingListEntry :=
  let ro := find_reading_list_offset data
  if ro < 0 then []
  else
    let off := ro.toNat
    if off + 4 > data.length then []
    else
      let entry_size := leU16At data off
      let entry_count := leU16At data (off + 2)
      if entry_size < 4 ∨ entry_size > 256 ∨ entry_count > 100 then []
      else readingEntries data (off + 4) entry_size entry_count 0

/-! ### `parse_note_events` (v3, 12-byte records)

The loop advances by exactly 12 bytes per iteration, so it is modelled as
structural recursion over the list of 12-byte chunks starting at the
component offset. -/

/-- Split into consecutive full 12-byte chunks (the tail shorter than 12
bytes is dropped, matching the `offset + 12 <= len` loop guard). -/
def chunks12 : List Nat → List (List Nat)
  | b0 :: b1 :: b2 :: b3 :: b4 :: b5 :: b6 :: b7 :: b8 :: b9 :: b10 :: b11 :: rest =>
      [b0, b1, b2, b3, b4, b5, b6, b7, b8, b9, b10, b11] :: chunks12 rest
  | _ => []

/-- The `NON_NOTE_TYPES` set. -/
def NON_NOTE_TYPES : List Nat :=
  [0x33, 0x35, 0x36, 0x37, 0x38, 0x39, 0x3D,
   0x75, 0x78, 0x7D, 0x7E, 0xB6, 0xB7, 0xBD, 0xBE, 0xFD, 0xFE]

/-- Marker derivation from `record[5]` (the `if/elif` chain). -/
def markerOf (b : Nat) : Char :=
  if b = 0x49 then 'I'
  else if b = 0x46 then 'F'
  else if b = 0x4C then 'L'
  else if b = 0x43 then 'C'
  else if b = 0x40 then '@'
  else if b = 0x41 then 'A'
  else if 32 ≤ b ∧ b ≤ 126 then Char.ofNat b
  else 'F'

/-- The `for idx, num_strings in enumerate(track_string_counts)` loop mapping
a cumulative string index to `(track_idx, local_string)`; when the loop
falls through without a break, `track_idx` keeps its initial value 0. -/
def mapTrackAux : Nat → List Nat → Nat → Nat × Nat
  | _, [], ls => (0, ls)
  | i, n :: rest, ls => if ls < n then (i, ls) else mapTrackAux (i + 1) rest (ls - n)

/-- The v3 component loop over 12-byte records.  `VALUE_PER_STRING = 8` and
`VALUE_PER_POSITION = 32 * total_strings` are inlined; `cinv` is the
`consecutive_invalid` counter with `max_invalid = 20`.  (The source also
computes an unused `is_grace_note` flag, omitted here.) -/
def v3Notes (total_strings : Nat) (counts : List Nat) :
    List (List Nat) → Nat → List TEFNoteEvent
  | [], _ => []
  | r :: rs, cinv =>
    let component_type := pyGet r 4
    if component_type ∈ NON_NOTE_TYPES then
      v3Notes total_strings counts rs cinv
    else
      let lower_bits := component_type % 32
      if lower_bits < 1 ∨ lower_bits > 25 then
        (if cinv + 1 ≥ 20 then [] else v3Notes total_strings counts rs (cinv + 1))
      else
        let location := leU32Of r
        let fret := lower_bits - 1
        let cumulative_string := location % (32 * total_strings) / 8
        let tl := mapTrackAux 0 counts cumulative_string
        let position := location / (32 * total_strings)
        ⟨position, tl.1, markerOf (pyGet r 5), tl.2 + 1, fret, r⟩ ::
          v3Notes total_strings counts rs 0

/-- `sum(inst.num_strings for inst in self.parse_instruments())`, with the
fallback to 5 when the sum is 0. -/
def totalStringsOf (data : List Nat) : Nat :=
  let s := ((parse_instruments data).map (fun i => i.num_strings)).sum
  if s = 0 then 5 else s

/-- `track_string_counts`, with the `[5]` fallback. -/
def trackCountsOf (data : List Nat) : List Nat :=
  let l := (parse_instruments data).map (fun i => i.num_strings)
  if l = [] then [5] else l

/-- `TEFReader.find_component_offset`: the 'debt' marker lookup.  The
`Except` models the `struct.error` Python raises when fewer than 4 bytes
follow `debt + 4`; `.ok (-1)` is the "not found" result. -/
def find_component_offset (data : List Nat) : Except String Int :=
  match findFrom data [100, 101, 98, 116] 0 with
  | none => .ok (-1)
  | some p =>
    if data.length < p + 8 then .error "struct.error: short read after debt"
    else
      let v := leU32At data (p + 4)
      if v ≥ data.length ∨ v < 100 then .ok (-1) else .ok (v : Int)

/-- `TEFReader.parse_note_events` (v3). -/
def parse_note_events (data : List Nat) (start_offset : Int) :
    Except String (List TEFNoteEvent) :=
  match (if start_offset < 0 then find_component_offset data else .ok start_offset) with
  | .error e => .error e
  | .ok so =>
    if so < 0 then .ok []
    else .ok (v3Notes (totalStringsOf data) (trackCountsOf data)
      (chunks12 (data.drop so.toNat)) 0)

/-! ### `parse_note_events_v2` (6-byte records) -/

/-- Split into consecutive full 6-byte chunks. -/
def chunks6 : List Nat → List (List Nat)
  | b0 :: b1 :: b2 :: b3 :: b4 :: b5 :: rest =>
      [b0, b1, b2, b3, b4, b5] :: chunks6 rest
  | _ => []

/-- The v2 component loop: remaining record count, remaining 6-byte chunks,
then the `m_data` overflow carry and `m_index` last-measure state. -/
def v2Notes (ts_size num_strings : Nat) (counts : List Nat) :
    Nat → List (List Nat) → Nat → Nat → List TEFNoteEvent
  | 0, _, _, _ => []
  | _ + 1, [], _, _ => []
  | k + 1, r :: rs, m_data, m_index =>
    let loc0 := pyGet r 0 + 256 * (m_data + pyGet r 1)
    let carry : Bool := decide (loc0 / (ts_size * num_strings) < m_index)
    let m_data2 := if carry then m_data + 256 else m_data
    let location := if carry then pyGet r 0 + 256 * (m_data2 + pyGet r 1) else loc0
    let position_in_measure := location % ts_size
    let cumulative_string := location / ts_size % num_strings
    let measure := location / (ts_size * num_strings)
    let fret_byte := pyGet r 2
    let fret_raw := fret_byte % 32
    let rest := v2Notes ts_size num_strings counts k rs m_data2 measure
    if 1 ≤ fret_raw ∧ fret_raw ≤ 25 then
      let fret0 := fret_raw - 1
      let fret := if fret_byte / 32 % 2 = 1 then fret0 + pyGet r 5 else fret0
      let tl := mapTrackAux 0 counts cumulative_string
      let abs_position := measure * 16 + position_in_measure * 16 / ts_size
      ⟨abs_position, tl.1, 'F', tl.2 + 1, fret, r⟩ :: rest
    else rest

/-- `TEFReader.parse_note_events_v2`. -/
def parse_note_events_v2 (data : List Nat) (h : TEFHeader) : List TEFNoteEvent :=
  let ts_size := h.v2_ts_size
  let num_strings := h.v2_strings
  if ts_size = 0 ∨ num_strings = 0 then []
  else
    let counts0 := (parse_instruments_v2 data h).map (fun i => i.num_strings)
    let counts := if counts0 = [] then [num_strings] else counts0
    v2Notes ts_size num_strings counts h.v2_component_count
      (chunks6 (data.drop h.v2_component_offset)) 0 0

/-! ### Top-level `parse` -/

/-- One step of the title-selection fold of `_parse_v3`. -/
def v3TitleStep (st : List Nat) (s : TEFString) : List Nat :=
  if s.offset < 512 ∧ s.value.length > st.length ∧
      ¬ containsSub s.value [80, 97, 114, 116] ∧ s.value.take 1 ≠ [40] then
    s.value
  else st

/-- Title selection of `_parse_v3`. -/
def parse_v3_title (strs : List TEFString) : List Nat :=
  strs.foldl v3TitleStep []

/-- `TEFReader._parse_v3`. -/
def parse_v3 (data : List Nat) (h : TEFHeader) : Except String TEFFile :=
  match parse_note_events data (-1) with
  | .error e => .error e
  | .ok evs =>
    let strs := find_strings data
    .ok ⟨h, parse_v3_title strs, strs, parse_instruments data, parse_chords data,
         parse_sections data, evs, parse_reading_list data⟩

/-- `TEFReader._parse_v2`. -/
def parse_v2 (data : List Nat) (h : TEFHeader) : TEFFile :=
  ⟨h, h.v2_title, [], parse_instruments_v2 data h, [], [],
   parse_note_events_v2 data h, []⟩

/-- `TEFReader.parse`: version dispatch. -/
def parse (data : List Nat) : Except String TEFFile :=
  match read_header data with
  | .error e => .error e
  | .ok h => if h.is_v2 then .ok (parse_v2 data h) else parse_v3 data h

/-! ### Claim-side reconstruction of the v2 location decoding

`v2LocationSpec` is written from the specification's wording of the v2
location/carry computation, to be compared with the decoder above. -/

/-- One v2 location-decoding step as the specification states it:
`location = r0 + 256·(m_data + r1)`; when `location / (ts_size·N) <
m_index` the carry adds 256 to `m_data` and location is recomputed; the
result tuple is `(location, position_in_measure, cumulative_string,
measure, m_data', m_index')`. -/
def v2LocationSpec (ts_size N m_data m_index r0 r1 : Nat) :
    Nat × Nat × Nat × Nat × Nat × Nat :=
  let loc0 := r0 + 256 * (m_data + r1)
  let md2 := if loc0 / (ts_size * N) < m_index then m_data + 256 else m_data
  let location := r0 + 256 * (md2 + r1)
  (location, location % ts_size, location / ts_size % N,
   location / (ts_size * N), md2, location / (ts_size * N))

/-- The v2 component loop re-expressed through `v2LocationSpec`. -/
def v2NotesVia (ts_size num_strings : Nat) (counts : List Nat) :
    Nat → List (List Nat) → Nat → Nat → List TEFNoteEvent
  | 0, _, _, _ => []
  | _ + 1, [], _, _ => []
  | k + 1, r :: rs, m_data, m_index =>
    let q := v2LocationSpec ts_size num_strings m_data m_index (pyGet r 0) (pyGet r 1)
    let rest := v2NotesVia ts_size num_strings counts k rs q.2.2.2.2.1 q.2.2.2.2.2
    let fret_raw := pyGet r 2 % 32
    if 1 ≤ fret_raw ∧ fret_raw ≤ 25 then
      let fret0 := fret_raw - 1
      let fret := if pyGet r 2 / 32 % 2 = 1 then fret0 + pyGet r 5 else fret0
      let tl := mapTrackAux 0 counts q.2.2.1
      ⟨q.2.2.2.1 * 16 + q.2.1 * 16 / ts_size, tl.1, 'F', tl.2 + 1, fret, r⟩ :: rest
    else rest

/-- The `track_string_counts` list used by the v2 note decoder. -/
def v2TrackCounts (data : List Nat) (h : TEFHeader) : List Nat :=
  let counts0 := (parse_instruments_v2 data h).map (fun i => i.num_strings)
  if counts0 = [] then [h.v2_strings] else counts0

/-! ### Concrete buffers used as counterexamples and witnesses -/

/-- A minimal v3-style buffer: `debt` marker at 0 pointing to offset 104,
where a single note record sits with location 80 (= `0x50`) and
`component_type = 1`; it contains no instrument-name pattern, so the
decoder falls back to a single 5-string track. -/
def exC3buf : List Nat :=
  [100, 101, 98, 116, 104, 0, 0, 0] ++ List.replicate 96 0 ++
    [0x50, 0, 0, 0, 1, 0x49, 0, 0, 0, 0, 0, 0]

/-- Like `exC3buf`, but the note record has location 0 and marker byte 0
(an unprintable marker byte). -/
def exC7buf : List Nat :=
  [100, 101, 98, 116, 104, 0, 0, 0] ++ List.replicate 96 0 ++
    [0, 0, 0, 0, 1, 0, 0, 0, 0, 0, 0, 0]

/-- A 4-byte binary-header file whose major version byte is 7. -/
def exC4buf : List Nat := [16, 0, 0, 7]

/-- A 4-byte v3 file (major version 3) containing no `debt` marker. -/
def exC5buf : List Nat := [16, 0, 0, 3]

/-- A buffer whose only instrument-name occurrence (`bass` at offset 4,
NUL-terminated, no tuning name) is preceded by the bytes `[1,2,3,4]`,
which fail the `[0x10, 0x60]` tuning-byte validation. -/
def exC6buf : List Nat := [1, 2, 3, 4, 98, 97, 115, 115, 0, 0]

/-! ### Theorems -/

/-- C7 (code bug): the recognized marker mapping and printable retention
hold, but an unprintable marker byte yields `'F'` (the Fret letter marker),
not the Special marker `'S'` claimed by the spec and by the source's own
`TEFNoteEvent` docstrings (`0x00='S'`): at the failing input `exC7buf`,
whose note record has marker byte 0, the emitted event's marker is `'F'`. -/
theorem marker_unprintable_yields_F :
    markerOf 0 = 'F' ∧ markerOf 0 ≠ 'S' ∧
    parse_note_events exC7buf (-1) =
      Except.ok [⟨0, 0, 'F', 1, 0, [0, 0, 0, 0, 1, 0, 0, 0, 0, 0, 0, 0]⟩] :=
  ⟨rfl, by decide, rfl⟩

/-- A v3 component record counting as *invalid* for the consecutive-invalid
counter: not a known non-note type and not a valid note. -/
def invalidRec (r : List Nat) : Prop :=
  pyGet r 4 ∉ NON_NOTE_TYPES ∧ (pyGet r 4 % 32 < 1 ∨ 25 < pyGet r 4 % 32)

/-- A run of `k` invalid records starting with counter `cinv`, where
`cinv + k = 20`, makes the v3 loop stop and return nothing further. -/
theorem v3Notes_invalid_run (N : Nat) (counts : List Nat) :
    ∀ (k cinv : Nat) (rs : List (List Nat)), cinv + k = 20 → cinv < 20 →
      k ≤ rs.length → (∀ r ∈ rs.take k, invalidRec r) →
      v3Notes N counts rs cinv = [] := by
  intro k
  induction k with
  | zero => intro cinv rs h1 h2 _ _; omega
  | succ k ih =>
    intro cinv rs h1 h2 h3 h4
    cases rs with
    | nil => simp at h3
    | cons r rs =>
      have hr : invalidRec r := h4 r (by simp)
      rw [v3Notes, if_neg hr.1, if_pos hr.2]
      by_cases hc : cinv + 1 ≥ 20
      · rw [if_pos hc]
      · rw [if_neg hc]
        exact ih (cinv + 1) rs (by omega) (by omega) (by simpa using h3)
          (fun r2 hr2 => h4 r2 (by simp [hr2]))

/-- Lists shorter than one record width produce no 12-byte chunk. -/
theorem chunks12_short : ∀ (l : List Nat), l.length < 12 → chunks12 l = []
  | [], _ => rfl
  | [_], _ => rfl
  | [_, _], _ => rfl
  | [_, _, _], _ => rfl
  | [_, _, _, _], _ => rfl
  | [_, _, _, _, _], _ => rfl
  | [_, _, _, _, _, _], _ => rfl
  | [_, _, _, _, _, _, _], _ => rfl
  | [_, _, _, _, _, _, _, _], _ => rfl
  | [_, _, _, _, _, _, _, _, _], _ => rfl
  | [_, _, _, _, _, _, _, _, _, _], _ => rfl
  | [_, _, _, _, _, _, _, _, _, _, _], _ => rfl
  | _ :: _ :: _ :: _ :: _ :: _ :: _ :: _ :: _ :: _ :: _ :: _ :: _, h => by
      simp only [List.length_cons] at h; omega

/-- C8: termination behaviour of the v3 component stream walk.  Fewer than
12 remaining bytes produce no further record; the empty record stream ends
decoding; a known non-note record is skipped silently with the
consecutive-invalid counter unchanged; an invalid record stops decoding
when the counter reaches 20 and otherwise increments it; an accepted note
is emitted and resets the counter to 0; and a run of 20 invalid records
from counter 0 ends decoding with the events parsed so far (in this
cons-formulation, the already-emitted prefix). -/
theorem v3_stream_termination (N : Nat) (counts : List Nat) (r : List Nat)
    (rs : List (List Nat)) (cinv : Nat) :
    (∀ l : List Nat, l.length < 12 → chunks12 l = []) ∧
    v3Notes N counts [] cinv = [] ∧
    (pyGet r 4 ∈ NON_NOTE_TYPES →
      v3Notes N counts (r :: rs) cinv = v3Notes N counts rs cinv) ∧
    (invalidRec r → 20 ≤ cinv + 1 → v3Notes N counts (r :: rs) cinv = []) ∧
    (invalidRec r → cinv + 1 < 20 →
      v3Notes N counts (r :: rs) cinv = v3Notes N counts rs (cinv + 1)) ∧
    (pyGet r 4 ∉ NON_NOTE_TYPES → 1 ≤ pyGet r 4 % 32 → pyGet r 4 % 32 ≤ 25 →
      ∃ e, v3Notes N counts (r :: rs) cinv = e :: v3Notes N counts rs 0) ∧
    (20 ≤ rs.length → (∀ r2 ∈ rs.take 20, invalidRec r2) →
      v3Notes N counts rs 0 = []) := by
  refine ⟨chunks12_short, rfl, ?_, ?_, ?_, ?_, ?_⟩
  · intro hin
    rw [v3Notes, if_pos hin]
  · intro hr hc
    rw [v3Notes, if_neg hr.1, if_pos hr.2, if_pos hc]
  · intro hr hc
    rw [v3Notes, if_neg hr.1, if_pos hr.2, if_neg (by omega : ¬ cinv + 1 ≥ 20)]
  · intro h1 h2 h3
    refine ⟨⟨leU32Of r / (32 * N),
      (mapTrackAux 0 counts (leU32Of r % (32 * N) / 8)).1, markerOf (pyGet r 5),
      (mapTrackAux 0 counts (leU32Of r % (32 * N) / 8)).2 + 1, pyGet r 4 % 32 - 1, r⟩, ?_⟩
    rw [v3Notes, if_neg h1, if_neg (by omega : ¬ (pyGet r 4 % 32 < 1 ∨ pyGet r 4 % 32 > 25))]
  · intro hlen hrun
    exact v3Notes_invalid_run N counts 20 0 rs rfl (by omega) hlen hrun

/-- Witness for C8: at a concrete non-note record and the empty stream, the
skip-silently and end-of-stream conjuncts evaluate concretely. -/
theorem v3_stream_termination_witness :
    v3Notes 5 [5] [[0, 0, 0, 0, 0x33, 0, 0, 0, 0, 0, 0, 0]] 3 = [] := by
  rw [(v3_stream_termination 5 [5] [0, 0, 0, 0, 0x33, 0, 0, 0, 0, 0, 0, 0] [] 3).2.2.1
    (by decide)]
  rfl

/-- Every event in the v3 component loop output was built from its own
12-byte record: the location, fret, marker and string mapping can be read
back off the stored `raw_data`. -/
theorem v3Notes_mem_spec (N : Nat) (counts : List Nat) :
    ∀ (rs : List (List Nat)) (cinv : Nat) (e : TEFNoteEvent),
      e ∈ v3Notes N counts rs cinv →
      1 ≤ pyGet e.raw_data 4 % 32 ∧ pyGet e.raw_data 4 % 32 ≤ 25 ∧
      e.pitch_byte = pyGet e.raw_data 4 % 32 - 1 ∧
      e.position = leU32Of e.raw_data / (32 * N) ∧
      e.track = (mapTrackAux 0 counts (leU32Of e.raw_data % (32 * N) / 8)).1 ∧
      e.extra = (mapTrackAux 0 counts (leU32Of e.raw_data % (32 * N) / 8)).2 + 1 ∧
      e.marker = markerOf (pyGet e.raw_data 5) := by
  intro rs
  induction rs with
  | nil => intro cinv e h; simp [v3Notes] at h
  | cons r rs ih =>
    intro cinv e h
    rw [v3Notes] at h
    by_cases h1 : pyGet r 4 ∈ NON_NOTE_TYPES
    · rw [if_pos h1] at h; exact ih cinv e h
    · rw [if_neg h1] at h
      by_cases h2 : pyGet r 4 % 32 < 1 ∨ pyGet r 4 % 32 > 25
      · rw [if_pos h2] at h
        by_cases h3 : cinv + 1 ≥ 20
        · rw [if_pos h3] at h; simp at h
        · rw [if_neg h3] at h; exact ih (cinv + 1) e h
      · rw [if_neg h2] at h
        rcases List.mem_cons.mp h with he | he
        · subst he
          refine ⟨?_, ?_, rfl, rfl, rfl, rfl, rfl⟩
          · show 1 ≤ pyGet r 4 % 32
            omega
          · show pyGet r 4 % 32 ≤ 25
            omega
        · exact ih 0 e he

/-- Unpacks a successful `parse_note_events` run: every returned event
satisfies the per-record decoding relations, with `N = totalStringsOf` and
the track counts of the file. -/
theorem mem_parse_note_events (data : List Nat) (so : Int)
    (evs : List TEFNoteEvent) (e : TEFNoteEvent)
    (hok : parse_note_events data so = Except.ok evs) (he : e ∈ evs) :
    1 ≤ pyGet e.raw_data 4 % 32 ∧ pyGet e.raw_data 4 % 32 ≤ 25 ∧
    e.pitch_byte = pyGet e.raw_data 4 % 32 - 1 ∧
    e.position = leU32Of e.raw_data / (32 * totalStringsOf data) ∧
    e.track = (mapTrackAux 0 (trackCountsOf data)
      (leU32Of e.raw_data % (32 * totalStringsOf data) / 8)).1 ∧
    e.extra = (mapTrackAux 0 (trackCountsOf data)
      (leU32Of e.raw_data % (32 * totalStringsOf data) / 8)).2 + 1 ∧
    e.marker = markerOf (pyGet e.raw_data 5) := by
  unfold parse_note_events at hok
  cases hfc : (if so < 0 then find_component_offset data else Except.ok so) with
  | error e2 => rw [hfc] at hok; simp at hok
  | ok sov =>
    rw [hfc] at hok
    have hok2 : (if sov < 0 then (Except.ok [] : Except String (List TEFNoteEvent))
        else Except.ok (v3Notes (totalStringsOf data) (trackCountsOf data)
          (chunks12 (data.drop sov.toNat)) 0)) = Except.ok evs := hok
    by_cases hs : sov < 0
    · rw [if_pos hs] at hok2
      obtain rfl := (Except.ok.injEq _ _).mp hok2
      simp at he
    · rw [if_neg hs] at hok2
      obtain rfl := (Except.ok.injEq _ _).mp hok2
      exact v3Notes_mem_spec _ _ _ _ e he

/-- C1: v3 location unpacking.  For every record accepted as a note (every
emitted event), with `N = totalStringsOf data` (the sum of `num_strings`
over the decoded instruments, falling back to 5 when that sum is 0, i.e.
when no instruments are decoded), `VALUE_PER_STRING = 8` and
`VALUE_PER_POSITION = 32·N`: the event's grid position is
`location / (32·N)` and its track/local-string attribution is the walk of
the cumulative string index `(location mod (32·N)) / 8` through the track
string counts, where `location` is the little-endian u32 in bytes 0..4 of
the record. -/
theorem v3_location_unpacking (data : List Nat) (so : Int)
    (evs : List TEFNoteEvent) (e : TEFNoteEvent)
    (hok : parse_note_events data so = Except.ok evs) (he : e ∈ evs) :
    e.position = leU32Of e.raw_data / (32 * totalStringsOf data) ∧
    e.track = (mapTrackAux 0 (trackCountsOf data)
      (leU32Of e.raw_data % (32 * totalStringsOf data) / 8)).1 ∧
    e.extra = (mapTrackAux 0 (trackCountsOf data)
      (leU32Of e.raw_data % (32 * totalStringsOf data) / 8)).2 + 1 := by
  obtain ⟨-, -, -, h4, h5, h6, -⟩ := mem_parse_note_events data so evs e hok he
  exact ⟨h4, h5, h6⟩

/-- The single note event decoded from `exC3buf`. -/
def exC3ev : TEFNoteEvent := ⟨0, 0, 'I', 6, 0, [80, 0, 0, 0, 1, 73, 0, 0, 0, 0, 0, 0]⟩

/-- Witness for C1 at the concrete file `exC3buf` and its decoded event. -/
theorem v3_location_unpacking_witness :
    exC3ev.position = leU32Of exC3ev.raw_data / (32 * totalStringsOf exC3buf) ∧
    exC3ev.track = (mapTrackAux 0 (trackCountsOf exC3buf)
      (leU32Of exC3ev.raw_data % (32 * totalStringsOf exC3buf) / 8)).1 ∧
    exC3ev.extra = (mapTrackAux 0 (trackCountsOf exC3buf)
      (leU32Of exC3ev.raw_data % (32 * totalStringsOf exC3buf) / 8)).2 + 1 :=
  v3_location_unpacking exC3buf (-1) [exC3ev] exC3ev (by rfl) (by simp)

/-- The track-mapping loop returns either a break index below the list
length or its fall-through initial value 0. -/
theorem mapTrackAux_fst (counts : List Nat) :
    ∀ (i ls : Nat), (mapTrackAux i counts ls).1 = 0 ∨
      ∃ j, j < counts.length ∧ (mapTrackAux i counts ls).1 = i + j := by
  induction counts with
  | nil => intro i ls; left; rfl
  | cons n rest ih =>
    intro i ls
    rw [mapTrackAux]
    by_cases h : ls < n
    · rw [if_pos h]; right; exact ⟨0, by simp, by simp⟩
    · rw [if_neg h]
      rcases ih (i + 1) (ls - n) with h0 | ⟨j, hj, heq⟩
      · left; exact h0
      · right
        refine ⟨j + 1, by simp; omega, ?_⟩
        rw [heq]; omega

/-- When the cumulative string index is below the total string count, the
track-mapping loop breaks inside the list and the local string is below
the owning track's string count. -/
theorem mapTrackAux_bounded (counts : List Nat) :
    ∀ (i ls : Nat), ls < counts.sum →
      ∃ j l2, mapTrackAux i counts ls = (i + j, l2) ∧ j < counts.length ∧
        l2 < counts.getD j 0 := by
  induction counts with
  | nil => intro i ls h; simp at h
  | cons n rest ih =>
    intro i ls h
    rw [mapTrackAux]
    by_cases hl : ls < n
    · rw [if_pos hl]
      exact ⟨0, ls, by simp, by simp, by simpa⟩
    · rw [if_neg hl]
      have hsum : ls - n < rest.sum := by simp [List.sum_cons] at h; omega
      rcases ih (i + 1) (ls - n) hsum with ⟨j, l2, heq, hj, hlt⟩
      refine ⟨j + 1, l2, ?_, by simp; omega, by simpa using hlt⟩
      rw [heq]
      congr 1
      omega

/-- Membership through stable insertion. -/
theorem mem_insertByOffset (x y : TEFInstrument) :
    ∀ (l : List TEFInstrument), y ∈ insertByOffset x l ↔ y = x ∨ y ∈ l := by
  intro l
  induction l with
  | nil => simp [insertByOffset]
  | cons z zs ih =>
    rw [insertByOffset]
    by_cases h : z.offset ≤ x.offset
    · rw [if_pos h]
      simp only [List.mem_cons, ih]
      tauto
    · rw [if_neg h]
      simp [List.mem_cons]

/-- Sorting by offset preserves membership. -/
theorem mem_sortByOffset (y : TEFInstrument) :
    ∀ (l : List TEFInstrument), y ∈ sortByOffset l ↔ y ∈ l := by
  intro l
  induction l with
  | nil => simp [sortByOffset]
  | cons z zs ih => rw [sortByOffset, mem_insertByOffset]; simp [ih]

/-- An accepted occurrence copies the pattern's default string count. -/
theorem instAtOccurrence_num (data pat : List Nat) (ds idx : Nat)
    (inst : TEFInstrument) (h : instAtOccurrence data pat ds idx = some inst) :
    inst.num_strings = ds := by
  simp only [instAtOccurrence] at h
  split_ifs at h
  all_goals
    first
      | exact Option.noConfusion h
      | (obtain rfl := (Option.some.injEq _ _).mp h; rfl)

/-- Occurrence positions never exceed the buffer length. -/
theorem occurrences_le (data pat : List Nat) (idx : Nat)
    (h : idx ∈ occurrences data pat) : idx ≤ data.length := by
  unfold occurrences at h
  have := (List.mem_filter.mp h).1
  simp [List.mem_range] at this
  omega

/-- One occurrence step adds at most one instrument, produced by
`instAtOccurrence` at that occurrence. -/
theorem scanPatternStep_mem (data pat : List Nat) (ds : Nat)
    (st : List Nat × List TEFInstrument) (idx : Nat) (inst : TEFInstrument)
    (h : inst ∈ (scanPatternStep data pat ds st idx).2) :
    inst ∈ st.2 ∨ instAtOccurrence data pat ds idx = some inst := by
  unfold scanPatternStep at h
  split_ifs at h
  · left; exact h
  · cases hio : instAtOccurrence data pat ds idx with
    | none => rw [hio] at h; left; exact h
    | some i2 =>
      rw [hio] at h
      simp at h
      rcases h with h | rfl
      · left; exact h
      · right; rfl

/-- Per-pattern scan: every output instrument is either inherited or comes
from an occurrence of the pattern. -/
theorem scanPattern_foldl_mem (data pat : List Nat) (ds : Nat) :
    ∀ (occs : List Nat) (st : List Nat × List TEFInstrument) (inst : TEFInstrument),
      inst ∈ (occs.foldl (scanPatternStep data pat ds) st).2 →
      inst ∈ st.2 ∨ ∃ idx ∈ occs, instAtOccurrence data pat ds idx = some inst := by
  intro occs
  induction occs with
  | nil => intro st inst h; left; exact h
  | cons o os ih =>
    intro st inst h
    rcases ih (scanPatternStep data pat ds st o) inst h with h2 | ⟨idx, hidx, hio⟩
    · rcases scanPatternStep_mem data pat ds st o inst h2 with h3 | h3
      · left; exact h3
      · right; exact ⟨o, by simp, h3⟩
    · right; exact ⟨idx, by simp [hidx], hio⟩

/-- Across the pattern table: every decoded instrument arises from
`instAtOccurrence` at an occurrence of one of the table's patterns. -/
theorem parse_instruments_mem (data : List Nat) (inst : TEFInstrument)
    (h : inst ∈ parse_instruments data) :
    ∃ pat ds idx, (pat, ds) ∈ instrument_patterns ∧ idx ∈ occurrences data pat ∧
      instAtOccurrence data pat ds idx = some inst := by
  unfold parse_instruments at h
  rw [mem_sortByOffset] at h
  suffices key : ∀ (pats : List (List Nat × Nat)) (st : List Nat × List TEFInstrument),
      inst ∈ (pats.foldl (fun st pd => scanPattern data pd.1 pd.2 st) st).2 →
      inst ∈ st.2 ∨ ∃ pat ds idx, (pat, ds) ∈ pats ∧ idx ∈ occurrences data pat ∧
        instAtOccurrence data pat ds idx = some inst by
    rcases key instrument_patterns ([], []) h with h2 | ⟨pat, ds, idx, hm, hoc, hio⟩
    · simp at h2
    · exact ⟨pat, ds, idx, hm, hoc, hio⟩
  intro pats
  induction pats with
  | nil => intro st h2; left; exact h2
  | cons pd pds ih =>
    intro st h2
    rcases ih (scanPattern data pd.1 pd.2 st) h2 with h3 | ⟨pat, ds, idx, hm, hoc, hio⟩
    · rcases scanPattern_foldl_mem data pd.1 pd.2 (occurrences data pd.1) st inst h3
        with h4 | ⟨idx, hidx, hio⟩
      · left; exact h4
      · right; exact ⟨pd.1, pd.2, idx, by simp, hidx, hio⟩
    · right; exact ⟨pat, ds, idx, by simp [hm], hoc, hio⟩

/-- The backward NUL skip never moves the cursor forward. -/
theorem skipZerosP_le (data : List Nat) : ∀ p, skipZerosP data p ≤ p
  | 0 => Nat.le_refl _
  | 1 => Nat.le_refl _
  | p + 2 => by
    rw [skipZerosP]
    split
    · exact Nat.le_trans (skipZerosP_le data (p + 1)) (by omega)
    · exact Nat.le_refl _

/-- The backward NUL skip starting at `idx - 1` stays at or below it. -/
theorem skipZeros_bounds (data : List Nat) (idx : Nat) :
    skipZeros data ((idx : Int) - 1) ≤ (idx : Int) - 1 := by
  unfold skipZeros
  have h := skipZerosP_le data ((idx : Int) - 1 + 1).toNat
  omega

/-- The NUL-window search returns `-1` or a position in `[1, pos]`. -/
theorem nullPosIn_cases (data : List Nat) (pos : Int) :
    nullPosIn data pos = -1 ∨
      (1 ≤ nullPosIn data pos ∧ nullPosIn data pos ≤ pos) := by
  unfold nullPosIn
  cases hf : (nullWindow pos).find? (fun c => pyGetI data c == 0) with
  | none => left; rfl
  | some c =>
    right
    have hm := List.mem_of_find?_eq_some hf
    unfold nullWindow at hm
    have h1 := List.mem_filter.mp hm
    have h2 := h1.1
    have h3 := of_decide_eq_true h1.2
    have h4 : (0 : Int) ≤ max (pos - 3) 0 := le_max_right _ _
    simp only [List.mem_cons, List.not_mem_nil, or_false] at h2
    simp only [Option.getD_some]
    rcases h2 with rfl | rfl | rfl <;> omega

/-- A found NUL-window position lies at or below its starting cursor. -/
theorem nullPosIn_le_of_nonneg (data : List Nat) (p2 : Int)
    (h : 0 ≤ nullPosIn data p2) : nullPosIn data p2 ≤ p2 := by
  rcases nullPosIn_cases data p2 with h2 | ⟨h2, h3⟩
  · omega
  · exact h3

/-- Length of a Python slice. -/
theorem pySlice_length (data : List Nat) (a b : Nat) :
    (pySlice data a b).length = min b data.length - a := by
  simp [pySlice]

/-- The extracted tuning-pitch list is empty or has exactly `ds` entries,
each at most 80 (`96 - b` for a byte `b ∈ [16, 96]`). -/
theorem tuningPitchesAt_spec (data : List Nat) (ds : Nat) (te : Int)
    (hte : te ≤ (data.length : Int)) :
    tuningPitchesAt data ds te = [] ∨
      ((tuningPitchesAt data ds te).length = ds ∧
        ∀ p ∈ tuningPitchesAt data ds te, p ≤ 80) := by
  simp only [tuningPitchesAt]
  by_cases hs : te - (ds : Int) ≥ 0
  · rw [if_pos hs]
    by_cases hv : (pySlice data (te - (ds : Int)).toNat te.toNat).all
        (fun b => decide (16 ≤ b ∧ b ≤ 96)) = true
    · rw [if_pos hv]
      right
      constructor
      · rw [List.length_map, pySlice_length]
        omega
      · intro p hp
        obtain ⟨b, hb, rfl⟩ := List.mem_map.mp hp
        rw [List.all_eq_true] at hv
        have := of_decide_eq_true (hv b hb)
        omega
    · rw [if_neg hv]; left; rfl
  · rw [if_neg hs]; left; rfl

/-- Every accepted occurrence yields a pitch list that is empty or has
exactly the default string count of entries, each at most 80. -/
theorem instAtOccurrence_pitches (data pat : List Nat) (ds idx : Nat)
    (inst : TEFInstrument) (hlen : idx ≤ data.length)
    (h : instAtOccurrence data pat ds idx = some inst) :
    inst.tuning_pitches = [] ∨
      (inst.tuning_pitches.length = ds ∧ ∀ p ∈ inst.tuning_pitches, p ≤ 80) := by
  have hp1 := skipZeros_bounds data idx
  simp only [instAtOccurrence] at h
  split_ifs at h
  all_goals
    first
      | exact Option.noConfusion h
      | (obtain rfl := (Option.some.injEq _ _).mp h
         apply tuningPitchesAt_spec
         first
           | (refine le_trans (nullPosIn_le_of_nonneg data _ (by omega)) ?_; omega)
           | omega)

/-- Combined invariant of `parse_instruments`: every decoded instrument has
a default string count (at least 4), and its tuning pitch list is empty or
matches `num_strings` with every pitch at most 80. -/
theorem parse_instruments_inv (data : List Nat) (inst : TEFInstrument)
    (h : inst ∈ parse_instruments data) :
    4 ≤ inst.num_strings ∧
      (inst.tuning_pitches = [] ∨
        (inst.tuning_pitches.length = inst.num_strings ∧
          ∀ p ∈ inst.tuning_pitches, p ≤ 80)) := by
  obtain ⟨pat, ds, idx, hpat, hocc, hio⟩ := parse_instruments_mem data inst h
  have hnum := instAtOccurrence_num data pat ds idx inst hio
  have hds : 4 ≤ ds := (by decide : ∀ pd ∈ instrument_patterns, 4 ≤ pd.2) _ hpat
  refine ⟨hnum ▸ hds, ?_⟩
  rw [hnum]
  exact instAtOccurrence_pitches data pat ds idx inst (occurrences_le data pat idx hocc) hio

/-- The track-counts list is never empty. -/
theorem trackCountsOf_ne_nil (data : List Nat) : trackCountsOf data ≠ [] := by
  simp only [trackCountsOf]
  by_cases hl : (parse_instruments data).map (fun i => i.num_strings) = []
  · rw [if_pos hl]; simp
  · rw [if_neg hl]; exact hl

/-- The total string count equals the sum of the track-counts list (the
`[5]` fallback keeps the two in sync). -/
theorem totalStrings_eq_sum (data : List Nat) :
    totalStringsOf data = (trackCountsOf data).sum := by
  unfold totalStringsOf trackCountsOf
  by_cases hl : (parse_instruments data).map (fun i => i.num_strings) = []
  · simp [hl]
  · rw [if_neg hl, if_neg ?_]
    obtain ⟨x, hx⟩ := List.exists_mem_of_ne_nil _ hl
    obtain ⟨inst, hinst, rfl⟩ := List.mem_map.mp hx
    have h4 := (parse_instruments_inv data inst hinst).1
    have hle := List.single_le_sum (fun (x : Nat) _ => Nat.zero_le x) _ hx
    omega

/-- C3 (amended): for every event emitted by the v3 component decoder,
`0 ≤ fret ≤ 24`, `track < num_tracks`, and `1 ≤ local_string` always hold;
the upper bound `local_string ≤ track_string_count[track]` holds whenever
the cumulative string index `(location mod 32·N) / 8` is below `N` (the
total string count) — when it is not, the track loop falls through with
`track = 0` and an oversized local string, which refutes the unamended
claim. -/
theorem v3_note_event_bounds (data : List Nat) (so : Int)
    (evs : List TEFNoteEvent) (e : TEFNoteEvent)
    (hok : parse_note_events data so = Except.ok evs) (he : e ∈ evs) :
    e.pitch_byte ≤ 24 ∧ 1 ≤ e.extra ∧ e.track < (trackCountsOf data).length ∧
      (leU32Of e.raw_data % (32 * totalStringsOf data) / 8 < totalStringsOf data →
        e.extra ≤ (trackCountsOf data).getD e.track 0) := by
  obtain ⟨h1, h2, h3, -, h5, h6, -⟩ := mem_parse_note_events data so evs e hok he
  refine ⟨by omega, by omega, ?_, ?_⟩
  · rw [h5]
    rcases mapTrackAux_fst (trackCountsOf data) 0
        (leU32Of e.raw_data % (32 * totalStringsOf data) / 8) with h7 | ⟨j, hj, h7⟩
    · rw [h7]
      have := trackCountsOf_ne_nil data
      cases hcc : trackCountsOf data with
      | nil => exact absurd hcc this
      | cons c cs => simp
    · rw [h7]; omega
  · intro hcum
    have hcum2 : leU32Of e.raw_data % (32 * totalStringsOf data) / 8 <
        (trackCountsOf data).sum := lt_of_lt_of_eq hcum (totalStrings_eq_sum data)
    obtain ⟨j, l2, heq, hj, hlt⟩ :=
      mapTrackAux_bounded (trackCountsOf data) 0
        (leU32Of e.raw_data % (32 * totalStringsOf data) / 8) hcum2
    rw [h5, h6, heq]
    simpa using hlt

/-- Counterexample for C3: in `exC3buf` the decoded track counts are `[5]`
(single fallback track), yet the only emitted event has
`local_string = 6 > 5`: the bound `1 ≤ local_string ≤
track_string_count[track]` fails as stated. -/
theorem v3_note_event_bounds_counterexample :
    parse_note_events exC3buf (-1) = Except.ok [exC3ev] ∧
    trackCountsOf exC3buf = [5] ∧
    ¬ (∀ (evs : List TEFNoteEvent) (e : TEFNoteEvent),
        parse_note_events exC3buf (-1) = Except.ok evs → e ∈ evs →
        e.extra ≤ (trackCountsOf exC3buf).getD e.track 0) := by
  refine ⟨by rfl, by rfl, fun hall => ?_⟩
  have h := hall [exC3ev] exC3ev (by rfl) (by simp)
  rw [(by rfl : trackCountsOf exC3buf = [5])] at h
  exact absurd h (by decide)

/-- The single note event decoded from `exC7buf`. -/
def exC7ev : TEFNoteEvent := ⟨0, 0, 'F', 1, 0, [0, 0, 0, 0, 1, 0, 0, 0, 0, 0, 0, 0]⟩

/-- Witness for the amended C3 at the concrete file `exC7buf`, whose event
has cumulative string 0 < 5, so all four bounds apply. -/
theorem v3_note_event_bounds_witness :
    exC7ev.pitch_byte ≤ 24 ∧ 1 ≤ exC7ev.extra ∧
      exC7ev.track < (trackCountsOf exC7buf).length ∧
      (leU32Of exC7ev.raw_data % (32 * totalStringsOf exC7buf) / 8 <
          totalStringsOf exC7buf →
        exC7ev.extra ≤ (trackCountsOf exC7buf).getD exC7ev.track 0) :=
  v3_note_event_bounds exC7buf (-1) [exC7ev] exC7ev (by rfl) (by simp)

/-- C6 (amended): every decoded instrument's tuning pitch list is either
empty — a failed tuning-byte validation does *not* skip the occurrence,
it emits the instrument with an empty tuning — or it has exactly
`num_strings` entries with every pitch in `[0, 80]` (`96 - b` for
`b ∈ [16, 96]`), not in `[16, 96]` as claimed. -/
theorem instrument_tuning_amended (data : List Nat) (inst : TEFInstrument)
    (h : inst ∈ parse_instruments data) :
    inst.tuning_pitches = [] ∨
      (inst.tuning_pitches.length = inst.num_strings ∧
        ∀ p ∈ inst.tuning_pitches, p ≤ 80) :=
  (parse_instruments_inv data inst h).2

/-- Counterexample for C6: `exC6buf` yields exactly one instrument, with
`num_strings = 4` but an empty tuning list (its tuning bytes `[1,2,3,4]`
fail validation, yet the occurrence is not skipped), so
`len(tuning) = num_strings` and the pitch-range claim both fail. -/
theorem instrument_tuning_counterexample :
    parse_instruments exC6buf = [⟨[98, 97, 115, 115], [], 4, [], 4⟩] ∧
    ¬ (∀ inst ∈ parse_instruments exC6buf,
        inst.tuning_pitches.length = inst.num_strings ∧
        ∀ p ∈ inst.tuning_pitches, 16 ≤ p ∧ p ≤ 96) := by
  refine ⟨by rfl, fun hall => ?_⟩
  have h := hall ⟨[98, 97, 115, 115], [], 4, [], 4⟩ (by rw [(by rfl :
    parse_instruments exC6buf = [⟨[98, 97, 115, 115], [], 4, [], 4⟩])]; simp)
  exact absurd h.1 (by decide)

/-- Witness for the amended C6 at the concrete file `exC6buf`. -/
theorem instrument_tuning_amended_witness :
    (⟨[98, 97, 115, 115], [], 4, [], 4⟩ : TEFInstrument).tuning_pitches = [] ∨
      ((⟨[98, 97, 115, 115], [], 4, [], 4⟩ : TEFInstrument).tuning_pitches.length =
          (⟨[98, 97, 115, 115], [], 4, [], 4⟩ : TEFInstrument).num_strings ∧
        ∀ p ∈ (⟨[98, 97, 115, 115], [], 4, [], 4⟩ : TEFInstrument).tuning_pitches,
          p ≤ 80) :=
  instrument_tuning_amended exC6buf ⟨[98, 97, 115, 115], [], 4, [], 4⟩
    (by rw [(by rfl : parse_instruments exC6buf =
      [⟨[98, 97, 115, 115], [], 4, [], 4⟩])]; simp)

/-- C4 (amended): a parsed header whose major version is neither 2 nor 3 is
*not* rejected — `TEFVersionError` is never raised by the reader.  A file
with a non-printable first byte and major byte ≠ 2 is parsed along the v3
path exactly as a major-3 file would be, and whenever the v3 component
scan succeeds a `TEFFile` carrying that major version is returned. -/
theorem unsupported_version_amended (data : List Nat)
    (h4 : 4 ≤ data.length) (hb : ¬ (32 ≤ pyGet data 0 ∧ pyGet data 0 < 127))
    (hm : pyGet data 3 ≠ 2) :
    parse data = parse_v3 data
      { format_id := leU16At data 0, version_major := pyGet data 3,
        version_minor := pyGet data 2, raw_header := pySlice data 0 64 } ∧
    ∀ evs, parse_note_events data (-1) = Except.ok evs →
      ∃ f, parse data = Except.ok f ∧ f.header.version_major = pyGet data 3 := by
  have hh : read_header data = Except.ok
      { format_id := leU16At data 0, version_major := pyGet data 3,
        version_minor := pyGet data 2, raw_header := pySlice data 0 64 } := by
    unfold read_header
    rw [if_neg (by omega), if_neg hb, if_neg (by omega)]
  have hv2 : TEFHeader.is_v2
      { format_id := leU16At data 0, version_major := pyGet data 3,
        version_minor := pyGet data 2, raw_header := pySlice data 0 64 } = false := by
    simp [TEFHeader.is_v2, hm]
  have hp : parse data = parse_v3 data
      { format_id := leU16At data 0, version_major := pyGet data 3,
        version_minor := pyGet data 2, raw_header := pySlice data 0 64 } := by
    unfold parse
    rw [hh]
    simp [hv2]
  refine ⟨hp, fun evs hevs => ?_⟩
  rw [hp]
  unfold parse_v3
  rw [hevs]
  exact ⟨_, rfl, rfl⟩

/-- Counterexample for C4: the 4-byte file `exC4buf` parses its header to
major version 7 (neither 2 nor 3), yet `parse` returns a complete
`TEFFile` instead of failing with a version error. -/
theorem unsupported_version_counterexample :
    parse exC4buf = Except.ok
      ⟨{ format_id := 16, version_major := 7, version_minor := 0,
         raw_header := [16, 0, 0, 7] }, [], [], [], [], [], [], []⟩ := by
  rfl

/-- Witness for the amended C4 at the concrete file `exC4buf`. -/
theorem unsupported_version_amended_witness :
    ∃ f, parse exC4buf = Except.ok f ∧ f.header.version_major = 7 :=
  (unsupported_version_amended exC4buf (by decide) (by decide)
    (by decide)).2 [] (by rfl)

/-- C5 (amended): a missing `debt` marker, or a pointer below 100 or at or
past the file length, is tolerated rather than fatal:
`find_component_offset` returns the not-found value `-1` and
`parse_note_events` then returns an empty event list with no error. -/
theorem component_offset_missing_amended (data : List Nat) :
    (findFrom data [100, 101, 98, 116] 0 = none →
      find_component_offset data = Except.ok (-1)) ∧
    (∀ p, findFrom data [100, 101, 98, 116] 0 = some p → p + 8 ≤ data.length →
      (leU32At data (p + 4) < 100 ∨ data.length ≤ leU32At data (p + 4)) →
      find_component_offset data = Except.ok (-1)) ∧
    (find_component_offset data = Except.ok (-1) →
      parse_note_events data (-1) = Except.ok []) := by
  refine ⟨?_, ?_, ?_⟩
  · intro h
    unfold find_component_offset
    rw [h]
  · intro p hp hlen hv
    unfold find_component_offset
    rw [hp]
    have hok : (if data.length < p + 8 then
        (Except.error "struct.error: short read after debt" : Except String Int)
        else if leU32At data (p + 4) ≥ data.length ∨ leU32At data (p + 4) < 100
          then Except.ok (-1) else Except.ok (leU32At data (p + 4) : Int)) =
        Except.ok (-1) := by
      rw [if_neg (by omega), if_pos (by omega)]
    exact hok
  · intro h
    unfold parse_note_events
    rw [if_pos (by omega : (-1 : Int) < 0), h]
    simp

/-- Counterexample for C5: the v3 file `exC5buf` contains no `debt` bytes,
yet parsing succeeds and returns a `TEFFile` (with an empty note list)
instead of failing with a corrupt-file error. -/
theorem component_offset_missing_counterexample :
    parse exC5buf = Except.ok
      ⟨{ format_id := 16, version_major := 3, version_minor := 0,
         raw_header := [16, 0, 0, 3] }, [], [], [], [], [], [], []⟩ := by
  rfl

/-- Witness for the amended C5 at the concrete file `exC5buf`. -/
theorem component_offset_missing_witness :
    parse_note_events exC5buf (-1) = Except.ok [] :=
  (component_offset_missing_amended exC5buf).2.2
    ((component_offset_missing_amended exC5buf).1 (by rfl))

/-- C9: the derived v2 time-slice size is total (it is a Lean `def`, hence
never raises): when `time_denom = 0` it is 256, otherwise
`(256·time_num) / time_denom`. -/
theorem v2_ts_size_total (h : TEFHeader) :
    (h.v2_time_denom = 0 → h.v2_ts_size = 256) ∧
    (h.v2_time_denom ≠ 0 →
      h.v2_ts_size = 256 * h.v2_time_num / h.v2_time_denom) := by
  constructor <;> intro hd <;> simp [TEFHeader.v2_ts_size, hd]

/-- Witness for C9 at a concrete header with `time_denom = 0`. -/
theorem v2_ts_size_total_witness :
    ({ format_id := 0, version_major := 2, version_minor := 0, raw_header := [],
       v2_time_denom := 0 : TEFHeader }).v2_ts_size = 256 :=
  (v2_ts_size_total _).1 rfl

/-- C10: v2 and v3 instrument decoding are extensionally equal; the header
argument is ignored by v2 instrument decoding. -/
theorem parse_instruments_v2_eq (data : List Nat) (h h2 : TEFHeader) :
    parse_instruments_v2 data h = parse_instruments data ∧
    parse_instruments_v2 data h = parse_instruments_v2 data h2 :=
  ⟨rfl, rfl⟩

/-- C2: the v2 component decoder starts from `m_data = 0`, `m_index = 0`
and processes every 6-byte record through exactly the location/carry
computation stated by the specification (captured by `v2LocationSpec`),
with `N` the header's total string count and `ts_size` the derived
time-slice size. -/
theorem parse_note_events_v2_via (data : List Nat) (h : TEFHeader) :
    parse_note_events_v2 data h =
      (if h.v2_ts_size = 0 ∨ h.v2_strings = 0 then []
       else v2NotesVia h.v2_ts_size h.v2_strings (v2TrackCounts data h)
         h.v2_component_count (chunks6 (data.drop h.v2_component_offset)) 0 0) := by
  have key : ∀ (ts ns : Nat) (counts : List Nat) (k : Nat) (rs : List (List Nat))
      (md mi : Nat), v2Notes ts ns counts k rs md mi = v2NotesVia ts ns counts k rs md mi := by
    intro ts ns counts k
    induction k with
    | zero => intro rs md mi; rfl
    | succ k ih =>
      intro rs md mi
      cases rs with
      | nil => rfl
      | cons r rs =>
        rw [v2Notes, v2NotesVia]
        simp only [v2LocationSpec]
        by_cases hc : (pyGet r 0 + 256 * (md + pyGet r 1)) / (ts * ns) < mi
        · simp [hc, ih]
        · simp [hc, ih]
  rw [parse_note_events_v2]
  by_cases hg : h.v2_ts_size = 0 ∨ h.v2_strings = 0
  · simp [hg]
  · simp only [hg, if_false, key, v2TrackCounts]

end TEF
